import Mathlib

/-!
Shallow embedding of `src/chrome_agent_pipeline.py` (the classification-and-
dispatch core of the Chrome Agent pipeline) and proofs of the spec claims.

Strings are modelled as Lean `String` / `List Char`.  Python's `str.lower()`
is modelled character-wise as ASCII lowercasing (`pyLower`); this coincides
with Python on the alphabet actually used by the keyword lists and the claims
(ASCII letters, digits, punctuation and CJK characters, none of which have
non-ASCII case mappings).  Python's regex class `\s` for `str` patterns is
modelled by `pyIsSpace`, the exact Unicode whitespace set CPython uses.
The two regular expressions of the source (`https?://[^\s]+` and
`["\']([^"\']+)["\']`) are embedded as explicit leftmost-match scanners
(`findUrl`, `findQuoted`) whose semantics are characterised against
declarative first-match predicates below.
-/

/-! Embedded program and declarative specification predicates. -/

/-- ASCII lowercasing of one character, `str.lower` on the relevant alphabet. -/
def pyLowerChar (c : Char) : Char :=
  if 'A' ≤ c ∧ c ≤ 'Z' then Char.ofNat (c.toNat + 32) else c

/-- Model of Python `str.lower()` (character-wise on this alphabet). -/
def pyLower (s : String) : String :=
  String.mk (s.toList.map pyLowerChar)

/-- The Unicode whitespace set matched by `\s` in CPython `re` for `str`. -/
def pyIsSpace (c : Char) : Bool :=
  c = ' ' || c = '\t' || c = '\n' || c = '\x0b' || c = '\x0c' || c = '\r' ||
  c = '\x1c' || c = '\x1d' || c = '\x1e' || c = '\x1f' ||
  c = '\u0085' || c = '\u00a0' || c = '\u1680' ||
  ('\u2000' ≤ c && c ≤ '\u200a') ||
  c = '\u2028' || c = '\u2029' || c = '\u202f' || c = '\u205f' || c = '\u3000'

/-- `beginsWith pat l` is true when `pat` is an initial segment of `l`. -/
def beginsWith : List Char → List Char → Bool
  | [], _ => true
  | _ :: _, [] => false
  | c :: cs, d :: ds => c = d && beginsWith cs ds

/-- `containsSeq hay needle`: `needle` occurs as a contiguous subsequence of
`hay`; the model of Python's substring test `needle in hay`. -/
def containsSeq : List Char → List Char → Bool
  | [], needle => needle.isEmpty
  | c :: cs, needle => beginsWith needle (c :: cs) || containsSeq cs needle

/-- Python `needle in hay` on strings. -/
def strContains (hay needle : String) : Bool :=
  containsSeq hay.toList needle.toList

/-- The fixed bilingual keyword list `browser_keywords` of `Pipeline.pipe`. -/
def browser_keywords : List String :=
  ["打开网页", "打开网站", "访问", "浏览", "网页", "网站",
   "提取数据", "抓取", "爬取", "获取内容", "截图",
   "点击", "输入", "搜索", "填写表单", "下载",
   "open website", "visit", "browse", "extract", "scrape",
   "click", "input", "search", "screenshot"]

/-- The URL scanner `re.search(r'https?://[^\s]+', s)`: try to match the
pattern anchored at the head of the list.  The optional `s` and the greedy
`[^\s]+` are resolved as Python's backtracking engine does. -/
def matchUrlAt (l : List Char) : Option (List Char) :=
  if beginsWith "https://".toList l then
    if ((l.drop 8).takeWhile (fun c => !(pyIsSpace c))).isEmpty then none
    else some ("https://".toList ++ (l.drop 8).takeWhile (fun c => !(pyIsSpace c)))
  else if beginsWith "http://".toList l then
    if ((l.drop 7).takeWhile (fun c => !(pyIsSpace c))).isEmpty then none
    else some ("http://".toList ++ (l.drop 7).takeWhile (fun c => !(pyIsSpace c)))
  else none

/-- Leftmost match of `https?://[^\s]+`, the model of `re.search` with the
source's `url_pattern`. -/
def findUrl : List Char → Option (List Char)
  | [] => none
  | c :: cs =>
    match matchUrlAt (c :: cs) with
    | some u => some u
    | none => findUrl cs

/-- `has_url` of `Pipeline.pipe` (line 39). -/
def has_url (user_message : String) : Bool :=
  (findUrl user_message.toList).isSome

/-- The `Valves` configuration structure of the pipeline. -/
structure Valves where
  chrome_agent_url : String := "http://localhost:3000"
  enable_auto_detection : Bool := true
  timeout : Nat := 30

/-- `any(keyword in user_message.lower() for keyword in browser_keywords)`
(line 44). -/
def hasKeyword (user_message : String) : Bool :=
  browser_keywords.any (fun k => strContains (pyLower user_message) k)

/-- `is_browser_task` of `Pipeline.pipe` (lines 42-45). -/
def is_browser_task (v : Valves) (user_message : String) : Bool :=
  v.enable_auto_detection && (hasKeyword user_message || has_url user_message)

/-- The sub-intent trigger list of `_execute_browser_task` (line 61). -/
def extract_keywords : List String :=
  ["提取", "抓取", "获取", "extract", "scrape"]

/-- `any(keyword in task.lower() for keyword in [...])` (line 61): the task is
routed to `_extract_data` when true, `_execute_general_task` otherwise. -/
def isExtractTask (task : String) : Bool :=
  extract_keywords.any (fun k => strContains (pyLower task) k)

/-- A quote character of the class `["\']`. -/
def isQuote (c : Char) : Bool :=
  c = '"' || c = '\''

/-- The selector scanner `re.search(r'["\']([^"\']+)["\']', s)` anchored at
the head: an opening quote (of either kind), a maximal nonempty run of
non-quote characters, then a closing quote (of either kind, not necessarily
matching the opening one).  Returns the captured group. -/
def matchQuotedAt (l : List Char) : Option (List Char) :=
  match l with
  | [] => none
  | c :: rest =>
    if isQuote c then
      match (rest.dropWhile (fun d => !(isQuote d))).head? with
      | some _ =>
        if (rest.takeWhile (fun d => !(isQuote d))).isEmpty then none
        else some (rest.takeWhile (fun d => !(isQuote d)))
      | none => none
    else none

/-- Leftmost match of `["\']([^"\']+)["\']`, model of the selector regex. -/
def findQuoted : List Char → Option (List Char)
  | [] => none
  | c :: cs =>
    match matchQuotedAt (c :: cs) with
    | some w => some w
    | none => findQuoted cs

/-- The selector resolution of `_extract_data` (lines 109-114): present only
when the task mentions "选择器" or (case-insensitively) "selector", and then
the captured group of the first match of the quote regex, if any. -/
def extractSelector (task : String) : Option String :=
  if strContains task "选择器" || strContains (pyLower task) "selector" then
    (findQuoted task.toList).map String.mk
  else none

/-- One outbound `requests.post` call as issued by the dispatcher: the target
endpoint, the JSON payload fields, and the timeout argument. -/
structure OutboundRequest where
  url : String
  model : String
  content : String
  stream : Bool
  timeout : Nat
  deriving DecidableEq, Repr

/-- The `message` object of one element of `choices` in the backend JSON
(`choices[0].get("message", {})` reads `content` from it). -/
structure BackendMessage where
  content : Option String
  deriving DecidableEq, Repr

/-- One element of the `choices` array of the backend JSON. -/
structure BackendChoice where
  message : Option BackendMessage
  deriving DecidableEq, Repr

/-- The parsed backend JSON: `result.get("choices")` yields `none` when the
key is absent. -/
structure BackendResult where
  choices : Option (List BackendChoice)
  deriving DecidableEq, Repr

/-- Outcome of `response.json()`: a parsed value, or a raised
`JSONDecodeError` carrying its `str(e)` detail. -/
inductive JsonOutcome where
  | ok (result : BackendResult)
  | fail (detail : String)
  deriving DecidableEq, Repr

/-- A completed HTTP response: status code, the outcome of parsing the body
as JSON, and the raw body text. -/
structure HttpResponse where
  status_code : Nat
  body : JsonOutcome
  text : String
  deriving DecidableEq, Repr

/-- Outcome of one `requests.post` call: a completed response, or one of the
exceptions the dispatcher distinguishes (`ConnectionError`, `Timeout`, or any
other exception carrying its `str(e)` detail). -/
inductive HttpOutcome where
  | resp (r : HttpResponse)
  | connectionError
  | timeout
  | exc (detail : String)
  deriving DecidableEq, Repr

/-- The network environment: what each issued request returns. -/
def Http := OutboundRequest → HttpOutcome

/-- A Python exception escaping a dispatch helper, as discriminated by the
`except` clauses of `_execute_browser_task` (lines 66-71). -/
inductive PyExc where
  | connectionError
  | timeout
  | other (detail : String)
  deriving DecidableEq, Repr

/-- Response handling shared by both dispatch paths (lines 94-103 and
139-148), parameterised by the success prefix, the format-failure message and
the default content; `response.json()` failure on a 200 response raises. -/
def handleResponse (okPrefix failMsg defaultContent : String)
    (o : HttpOutcome) : Except PyExc String :=
  match o with
  | .connectionError => .error .connectionError
  | .timeout => .error .timeout
  | .exc d => .error (.other d)
  | .resp r =>
    if r.status_code = 200 then
      match r.body with
      | .fail d => .error (.other d)
      | .ok result =>
        match result.choices with
        | some (c :: _) =>
          let message := c.message.getD ⟨none⟩
          let content := message.content.getD defaultContent
          .ok (okPrefix ++ "\n\n" ++ content)
        | _ => .ok failMsg
    else
      .ok ("❌ 服务器错误 (" ++ toString r.status_code ++ "): " ++ r.text)

/-- `_execute_general_task` (lines 73-103): builds the full task string, posts
it once, and maps the response; returns the result together with the list of
issued requests. -/
def execute_general_task (v : Valves) (http : Http) (task : String)
    (url : Option String) : Except PyExc String × List OutboundRequest :=
  let full_task :=
    match url with
    | some u => "访问 " ++ u ++ " 然后 " ++ task
    | none => task
  let req : OutboundRequest :=
    { url := v.chrome_agent_url ++ "/api/v1/chat/completions",
      model := "chrome-agent-v1", content := full_task, stream := false,
      timeout := v.timeout }
  (handleResponse "✅ 任务执行完成" "❌ 任务执行失败\n\n响应格式异常"
    "任务已完成" (http req), [req])

/-- `_extract_data` (lines 106-148): resolves the selector, builds the
extraction task string, posts it once, and maps the response. -/
def extract_data (v : Valves) (http : Http) (task : String)
    (url : Option String) : Except PyExc String × List OutboundRequest :=
  let selector := extractSelector task
  let extract_task :=
    match url with
    | some u =>
      let base := "访问 " ++ u ++ " 然后 " ++ task
      match selector with
      | some s => base ++ "，使用选择器: " ++ s
      | none => base
    | none => task
  let req : OutboundRequest :=
    { url := v.chrome_agent_url ++ "/api/v1/chat/completions",
      model := "chrome-agent-v1", content := extract_task, stream := false,
      timeout := v.timeout }
  (handleResponse "✅ 数据提取完成" "❌ 数据提取失败\n\n响应格式异常"
    "数据提取完成" (http req), [req])

/-- The URL extraction of `_execute_browser_task` (lines 57-58):
`url_match.group(0) if url_match else None`. -/
def task_url (task : String) : Option String :=
  (findUrl task.toList).map String.mk

/-- `_execute_browser_task` (lines 53-71): extracts the URL, routes on the
sub-intent, and catches every exception at this boundary, converting it to a
formatted string. -/
def execute_browser_task (v : Valves) (http : Http) (task : String) :
    String × List OutboundRequest :=
  let (res, reqs) :=
    if isExtractTask task then extract_data v http task (task_url task)
    else execute_general_task v http task (task_url task)
  match res with
  | .ok s => (s, reqs)
  | .error .connectionError =>
    ("❌ 无法连接到 Chrome Agent 服务器，请确保服务正在运行", reqs)
  | .error .timeout => ("⏱️ 请求超时，任务可能需要更长时间执行", reqs)
  | .error (.other d) => ("❌ 执行失败: " ++ d, reqs)

/-- `Pipeline.pipe` (lines 24-51): classify and either dispatch the browser
task or return the message unchanged; also reports the issued requests. -/
def pipe (v : Valves) (http : Http) (user_message : String) :
    String × List OutboundRequest :=
  if is_browser_task v user_message then
    execute_browser_task v http user_message
  else
    (user_message, [])

/-- The shape of one match of `https?://[^\s]+`: a scheme, then a nonempty
run of non-whitespace characters. -/
def UrlShape (u : List Char) : Prop :=
  ∃ t, t ≠ [] ∧ (∀ c ∈ t, pyIsSpace c = false) ∧
    (u = "https://".toList ++ t ∨ u = "http://".toList ++ t)

/-- A match of the URL pattern begins at the head of `l`. -/
def UrlAt (l : List Char) : Prop :=
  ∃ u s, l = u ++ s ∧ UrlShape u

/-- `l` contains a substring matching `https?://[^\s]+`. -/
def ContainsUrl (l : List Char) : Prop :=
  ∃ p u s, l = p ++ u ++ s ∧ UrlShape u

/-- `u` is exactly the first match of `https?://[^\s]+` in `l`: it occurs in
`l`, it is maximal (the character following it, if any, is whitespace), and
no match begins strictly earlier. -/
def IsFirstUrl (l u : List Char) : Prop :=
  ∃ p s, l = p ++ u ++ s ∧ UrlShape u ∧
    (∀ c, s.head? = some c → pyIsSpace c = true) ∧
    ∀ i, i < p.length → ¬ UrlAt (l.drop i)

/-- A match of the selector quote regex begins at the head of `l`: an opening
quote, a nonempty quote-free run, and a closing quote (possibly different
from the opening one). -/
def QuotedAt (l : List Char) : Prop :=
  ∃ q1 w q2 s, l = q1 :: (w ++ q2 :: s) ∧ isQuote q1 = true ∧
    isQuote q2 = true ∧ w ≠ [] ∧ ∀ c ∈ w, isQuote c = false

/-- `l` contains a substring of the form quote, nonempty quote-free run,
quote (the two quotes possibly different). -/
def ContainsQuoted (l : List Char) : Prop :=
  ∃ p q1 w q2 s, l = p ++ q1 :: (w ++ q2 :: s) ∧ isQuote q1 = true ∧
    isQuote q2 = true ∧ w ≠ [] ∧ ∀ c ∈ w, isQuote c = false

/-- `w` is the captured group of the first match of the quote regex in `l`. -/
def IsFirstQuoted (l w : List Char) : Prop :=
  ∃ p q1 q2 s, l = p ++ q1 :: (w ++ q2 :: s) ∧ isQuote q1 = true ∧
    isQuote q2 = true ∧ w ≠ [] ∧ (∀ c ∈ w, isQuote c = false) ∧
    ∀ i, i < p.length → ¬ QuotedAt (l.drop i)

/-- Claim-side (C4) notion of a quoted substring delimited by MATCHING
quotes: an occurrence `q :: w ++ [q]` with the same quote character on both
sides (`w` unconstrained, the weakest reading, so that its absence is the
strongest possible statement). -/
def ContainsMatchingQuoted (l : List Char) : Prop :=
  ∃ p q w s, l = p ++ q :: (w ++ q :: s) ∧ isQuote q = true

/-- The content-composition rule of C6, written from the claim: a
visit-url-then-message phrase when a url was extracted, with the selector
suffix appended only for the Extract sub-intent with a resolved selector;
the verbatim message when no url was extracted. -/
def claimContent (msg : String) : String :=
  match task_url msg with
  | none => msg
  | some u =>
    if isExtractTask msg then
      match extractSelector msg with
      | some s => "访问 " ++ u ++ " 然后 " ++ msg ++ "，使用选择器: " ++ s
      | none => "访问 " ++ u ++ " 然后 " ++ msg
    else "访问 " ++ u ++ " 然后 " ++ msg

/-! Properties of the string scanners, bridging lemmas, and the claim theorems. -/

theorem beginsWith_iff (pat l : List Char) :
    beginsWith pat l = true ↔ pat <+: l := by
  induction pat generalizing l with
  | nil => simp [beginsWith]
  | cons c cs ih =>
    cases l with
    | nil => simp [beginsWith]
    | cons d ds =>
      simp only [beginsWith, Bool.and_eq_true, decide_eq_true_eq, ih,
        List.cons_prefix_cons]

theorem containsSeq_iff (hay needle : List Char) :
    containsSeq hay needle = true ↔ needle <:+: hay := by
  induction hay with
  | nil =>
    simp [containsSeq, List.isEmpty_iff, List.infix_nil]
  | cons c cs ih =>
    simp only [containsSeq, Bool.or_eq_true, beginsWith_iff, ih,
      List.infix_cons_iff]

theorem takeWhile_append_all {α : Type} (p : α → Bool) (w rest : List α)
    (h : ∀ c ∈ w, p c = true) :
    (w ++ rest).takeWhile p = w ++ rest.takeWhile p := by
  have hw : w.takeWhile p = w := List.takeWhile_eq_self_iff.mpr h
  rw [List.takeWhile_append, hw, if_pos rfl]

theorem dropWhile_append_all {α : Type} (p : α → Bool) (w rest : List α)
    (h : ∀ c ∈ w, p c = true) :
    (w ++ rest).dropWhile p = rest.dropWhile p := by
  have hw : w.dropWhile p = [] := List.dropWhile_eq_nil_iff.mpr h
  rw [List.dropWhile_append, hw]
  simp

theorem head_dropWhile_false {α : Type} (p : α → Bool) (l : List α) (c : α)
    (h : (l.dropWhile p).head? = some c) : p c = false := by
  induction l with
  | nil => simp [List.dropWhile] at h
  | cons a as ih =>
    by_cases hp : p a = true
    · rw [List.dropWhile_cons, if_pos hp] at h
      exact ih h
    · rw [List.dropWhile_cons, if_neg hp] at h
      simp only [List.head?_cons, Option.some.injEq] at h
      subst h
      exact Bool.eq_false_iff.mpr hp

theorem matchUrlAt_sound {l u : List Char} (h : matchUrlAt l = some u) :
    ∃ s, l = u ++ s ∧ UrlShape u ∧
      (∀ c, s.head? = some c → pyIsSpace c = true) := by
  unfold matchUrlAt at h
  split at h
  case isTrue h1 =>
    obtain ⟨rest, hrest⟩ := (beginsWith_iff _ _).mp h1
    have hdrop : l.drop 8 = rest := by
      rw [← hrest]
      exact List.drop_left' rfl
    rw [hdrop] at h
    split at h
    case isTrue h2 => exact absurd h (by simp)
    case isFalse h2 =>
      have hu : u = "https://".toList ++
          rest.takeWhile (fun c => !(pyIsSpace c)) := by
        exact (Option.some.injEq _ _ ▸ h).symm
      refine ⟨rest.dropWhile (fun c => !(pyIsSpace c)), ?_, ?_, ?_⟩
      · rw [hu, List.append_assoc, List.takeWhile_append_dropWhile, hrest]
      · refine ⟨rest.takeWhile (fun c => !(pyIsSpace c)), ?_, ?_, Or.inl hu⟩
        · intro hnil
          rw [hnil] at h2
          exact h2 rfl
        · intro c hc
          have := List.mem_takeWhile_imp hc
          simpa using this
      · intro c hc
        have := head_dropWhile_false _ _ _ hc
        simpa using this
  case isFalse h1 =>
    split at h
    case isTrue h1' =>
      obtain ⟨rest, hrest⟩ := (beginsWith_iff _ _).mp h1'
      have hdrop : l.drop 7 = rest := by
        rw [← hrest]
        exact List.drop_left' rfl
      rw [hdrop] at h
      split at h
      case isTrue h2 => exact absurd h (by simp)
      case isFalse h2 =>
        have hu : u = "http://".toList ++
            rest.takeWhile (fun c => !(pyIsSpace c)) := by
          exact (Option.some.injEq _ _ ▸ h).symm
        refine ⟨rest.dropWhile (fun c => !(pyIsSpace c)), ?_, ?_, ?_⟩
        · rw [hu, List.append_assoc, List.takeWhile_append_dropWhile, hrest]
        · refine ⟨rest.takeWhile (fun c => !(pyIsSpace c)), ?_, ?_, Or.inr hu⟩
          · intro hnil
            rw [hnil] at h2
            exact h2 rfl
          · intro c hc
            have := List.mem_takeWhile_imp hc
            simpa using this
        · intro c hc
          have := head_dropWhile_false _ _ _ hc
          simpa using this
    case isFalse h1' => exact absurd h (by simp)

theorem beginsWith_https_of_http (w : List Char) :
    beginsWith "https://".toList ("http://".toList ++ w) = false := rfl

theorem urlShape_ne_nil {u : List Char} (h : UrlShape u) : u ≠ [] := by
  obtain ⟨t, -, -, hu | hu⟩ := h <;> subst hu <;> simp

theorem matchUrlAt_complete {l : List Char} (h : UrlAt l) :
    matchUrlAt l ≠ none := by
  obtain ⟨u, s, hl, t, htne, htsp, hcase⟩ := h
  have htsp' : ∀ c ∈ t, (fun c => !(pyIsSpace c)) c = true := by
    intro c hc
    simp [htsp c hc]
  have htake : (t ++ s).takeWhile (fun c => !(pyIsSpace c)) =
      t ++ s.takeWhile (fun c => !(pyIsSpace c)) :=
    takeWhile_append_all _ t s htsp'
  rcases hcase with hu | hu
  · subst hu
    rw [List.append_assoc] at hl
    subst hl
    have hb : beginsWith "https://".toList
        ("https://".toList ++ (t ++ s)) = true :=
      (beginsWith_iff _ _).mpr (List.prefix_append _ _)
    have hd : List.drop 8 ("https://".toList ++ (t ++ s)) = t ++ s :=
      List.drop_left' rfl
    have hne : (t ++ s.takeWhile (fun c => !(pyIsSpace c))).isEmpty = false :=
      List.isEmpty_eq_false.mpr (by simp [htne])
    unfold matchUrlAt
    rw [if_pos hb, hd, htake,
      if_neg (fun hcon => by rw [hne] at hcon; exact Bool.false_ne_true hcon)]
    simp
  · subst hu
    rw [List.append_assoc] at hl
    subst hl
    have hb1 : beginsWith "https://".toList
        ("http://".toList ++ (t ++ s)) = false :=
      beginsWith_https_of_http _
    have hb2 : beginsWith "http://".toList
        ("http://".toList ++ (t ++ s)) = true :=
      (beginsWith_iff _ _).mpr (List.prefix_append _ _)
    have hd : List.drop 7 ("http://".toList ++ (t ++ s)) = t ++ s :=
      List.drop_left' rfl
    have hne : (t ++ s.takeWhile (fun c => !(pyIsSpace c))).isEmpty = false :=
      List.isEmpty_eq_false.mpr (by simp [htne])
    unfold matchUrlAt
    rw [if_neg (fun hcon => by rw [hb1] at hcon; exact Bool.false_ne_true hcon),
      if_pos hb2, hd, htake,
      if_neg (fun hcon => by rw [hne] at hcon; exact Bool.false_ne_true hcon)]
    simp

theorem findUrl_sound {l u : List Char} (h : findUrl l = some u) :
    IsFirstUrl l u := by
  induction l with
  | nil => simp [findUrl] at h
  | cons c cs ih =>
    cases hm : matchUrlAt (c :: cs) with
    | some u' =>
      rw [findUrl, hm] at h
      cases h
      obtain ⟨s, hls, hshape, hmax⟩ := matchUrlAt_sound hm
      exact ⟨[], s, hls, hshape, hmax, by intro i hi; simp at hi⟩
    | none =>
      rw [findUrl, hm] at h
      obtain ⟨p, s, hls, hshape, hmax, hleft⟩ := ih h
      refine ⟨c :: p, s, by rw [List.cons_append, List.cons_append, ← hls],
        hshape, hmax, ?_⟩
      intro i hi
      cases i with
      | zero =>
        intro hA
        exact matchUrlAt_complete hA hm
      | succ j =>
        simp only [List.length_cons, Nat.succ_lt_succ_iff] at hi
        simpa using hleft j hi

theorem findUrl_complete_aux (p : List Char) {u : List Char} (s : List Char)
    (hshape : UrlShape u) : findUrl (p ++ u ++ s) ≠ none := by
  induction p with
  | nil =>
    have hA : UrlAt (u ++ s) := ⟨u, s, rfl, hshape⟩
    cases hu : (u ++ s) with
    | nil =>
      exact absurd (List.append_eq_nil.mp hu).1 (urlShape_ne_nil hshape)
    | cons a l' =>
      simp only [List.nil_append]
      rw [hu, findUrl]
      cases hm : matchUrlAt (a :: l') with
      | some w => simp
      | none => exact absurd hm (matchUrlAt_complete (hu ▸ hA))
  | cons a p' ih =>
    rw [List.cons_append, List.cons_append, findUrl]
    cases hm : matchUrlAt (a :: (p' ++ u ++ s)) with
    | some w => simp
    | none => simpa using ih

theorem findUrl_complete {l : List Char} (h : ContainsUrl l) :
    findUrl l ≠ none := by
  obtain ⟨p, u, s, hl, hshape⟩ := h
  subst hl
  exact findUrl_complete_aux p s hshape

theorem matchQuotedAt_sound {l w : List Char} (h : matchQuotedAt l = some w) :
    ∃ q1 q2 s, l = q1 :: (w ++ q2 :: s) ∧ isQuote q1 = true ∧
      isQuote q2 = true ∧ w ≠ [] ∧ ∀ c ∈ w, isQuote c = false := by
  unfold matchQuotedAt at h
  cases l with
  | nil => exact absurd h (by simp)
  | cons c rest =>
    simp only at h
    split at h
    case isFalse hq => exact absurd h (by simp)
    case isTrue hq =>
      cases hh : (rest.dropWhile (fun d => !(isQuote d))).head? with
      | none => rw [hh] at h; exact absurd h (by simp)
      | some d =>
        rw [hh] at h
        by_cases h2 : (rest.takeWhile (fun d => !(isQuote d))).isEmpty = true
        · rw [if_pos h2] at h
          exact absurd h (by simp)
        · rw [if_neg h2] at h
          have hw : w = rest.takeWhile (fun d => !(isQuote d)) :=
            ((Option.some.injEq _ _ ▸ h)).symm
          obtain ⟨s', hs'⟩ := List.head?_eq_some_iff.mp hh
          refine ⟨c, d, s', ?_, hq, ?_, ?_, ?_⟩
          · rw [hw, ← hs', List.takeWhile_append_dropWhile]
          · have := head_dropWhile_false (fun d => !(isQuote d)) rest d hh
            simpa using this
          · intro hnil
            rw [hw] at hnil
            exact h2 (List.isEmpty_iff.mpr hnil)
          · intro x hx
            rw [hw] at hx
            have := List.mem_takeWhile_imp hx
            simpa using this

theorem matchQuotedAt_complete {l : List Char} (h : QuotedAt l) :
    matchQuotedAt l ≠ none := by
  obtain ⟨q1, w, q2, s, hl, hq1, hq2, hwne, hwall⟩ := h
  subst hl
  have hwall' : ∀ c ∈ w, (fun d => !(isQuote d)) c = true := by
    intro c hc
    simp [hwall c hc]
  have hdrop : (w ++ q2 :: s).dropWhile (fun d => !(isQuote d)) = q2 :: s := by
    rw [dropWhile_append_all _ w _ hwall', List.dropWhile_cons,
      if_neg (by simp [hq2])]
  have htake : (w ++ q2 :: s).takeWhile (fun d => !(isQuote d)) = w := by
    rw [takeWhile_append_all _ w _ hwall', List.takeWhile_cons,
      if_neg (by simp [hq2]), List.append_nil]
  have hne : ((w ++ q2 :: s).takeWhile (fun d => !(isQuote d))).isEmpty
      = false := by
    rw [htake]
    exact List.isEmpty_eq_false.mpr hwne
  unfold matchQuotedAt
  simp only
  rw [if_pos hq1, hdrop]
  simp only [List.head?_cons]
  rw [if_neg (fun hcon => by rw [hne] at hcon; exact Bool.false_ne_true hcon)]
  simp

theorem findQuoted_sound {l w : List Char} (h : findQuoted l = some w) :
    IsFirstQuoted l w := by
  induction l with
  | nil => simp [findQuoted] at h
  | cons c cs ih =>
    cases hm : matchQuotedAt (c :: cs) with
    | some w' =>
      rw [findQuoted, hm] at h
      cases h
      obtain ⟨q1, q2, s, hls, hq1, hq2, hwne, hwall⟩ := matchQuotedAt_sound hm
      exact ⟨[], q1, q2, s, hls, hq1, hq2, hwne, hwall,
        by intro i hi; simp at hi⟩
    | none =>
      rw [findQuoted, hm] at h
      obtain ⟨p, q1, q2, s, hls, hq1, hq2, hwne, hwall, hleft⟩ := ih h
      refine ⟨c :: p, q1, q2, s, by rw [List.cons_append, ← hls], hq1, hq2,
        hwne, hwall, ?_⟩
      intro i hi
      cases i with
      | zero =>
        intro hA
        exact matchQuotedAt_complete hA hm
      | succ j =>
        simp only [List.length_cons, Nat.succ_lt_succ_iff] at hi
        simpa using hleft j hi

theorem findQuoted_complete {l : List Char} (h : ContainsQuoted l) :
    findQuoted l ≠ none := by
  obtain ⟨p, q1, w, q2, s, hl, hq1, hq2, hwne, hwall⟩ := h
  subst hl
  induction p with
  | nil =>
    rw [List.nil_append, findQuoted]
    cases hm : matchQuotedAt (q1 :: (w ++ q2 :: s)) with
    | some w' => simp
    | none =>
      exact absurd hm
        (matchQuotedAt_complete ⟨q1, w, q2, s, rfl, hq1, hq2, hwne, hwall⟩)
  | cons a p' ih =>
    rw [List.cons_append, findQuoted]
    cases hm : matchQuotedAt (a :: (p' ++ q1 :: (w ++ q2 :: s))) with
    | some w' => simp
    | none => simpa using ih

theorem hasKeyword_iff (msg : String) :
    hasKeyword msg = true ↔
      ∃ k ∈ browser_keywords, k.toList <:+: (pyLower msg).toList := by
  simp only [hasKeyword, List.any_eq_true, strContains, containsSeq_iff]

theorem isExtractTask_iff (task : String) :
    isExtractTask task = true ↔
      ∃ k ∈ extract_keywords, k.toList <:+: (pyLower task).toList := by
  simp only [isExtractTask, List.any_eq_true, strContains, containsSeq_iff]

/-- C1: for every message containing no keyword of the fixed bilingual list
(matched case-insensitively against the lowercased message) and no substring
matching `https?://\S+`, and for every message whatsoever when `autoDetect`
is false, classification yields `isBrowserTask = false` and `pipe` returns
the input message unchanged (and issues no request). -/
theorem claim_C1 (v : Valves) (http : Http) (msg : String)
    (h : v.enable_auto_detection = false ∨
      ((∀ k ∈ browser_keywords, ¬ (k.toList <:+: (pyLower msg).toList)) ∧
        ¬ ContainsUrl msg.toList)) :
    is_browser_task v msg = false ∧ pipe v http msg = (msg, []) := by
  have hb : is_browser_task v msg = false := by
    rcases h with h | ⟨hk, hu⟩
    · simp [is_browser_task, h]
    · have h1 : hasKeyword msg = false := by
        apply Bool.eq_false_iff.mpr
        intro hk'
        obtain ⟨k, hkm, hki⟩ := (hasKeyword_iff msg).mp hk'
        exact hk k hkm hki
      have h2 : has_url msg = false := by
        apply Bool.eq_false_iff.mpr
        intro hu'
        unfold has_url at hu'
        cases hfu : findUrl msg.toList with
        | none => rw [hfu] at hu'; simp at hu'
        | some u =>
          obtain ⟨p, s, hls, hshape, -, -⟩ := findUrl_sound hfu
          exact hu ⟨p, u, s, hls, hshape⟩
      simp [is_browser_task, h1, h2]
  exact ⟨hb, by simp [pipe, hb]⟩

theorem claim_C1_witness :
    is_browser_task {} "just chatting, how are you" = false ∧
      pipe {} (fun _ => HttpOutcome.timeout) "just chatting, how are you" =
        ("just chatting, how are you", []) :=
  claim_C1 {} (fun _ => HttpOutcome.timeout) "just chatting, how are you"
    (Or.inr ⟨by decide, fun hC => findUrl_complete hC (by decide)⟩)

/-- C2: with `autoDetect` enabled, every message whose lowercased form
contains a keyword of the exact fixed 25-element bilingual list is
classified `isBrowserTask = true` (regardless of URL presence). -/
theorem claim_C2 (v : Valves) (msg : String)
    (h1 : v.enable_auto_detection = true)
    (h2 : ∃ k ∈ browser_keywords, k.toList <:+: (pyLower msg).toList) :
    browser_keywords.length = 25 ∧ is_browser_task v msg = true := by
  refine ⟨rfl, ?_⟩
  have hk : hasKeyword msg = true := (hasKeyword_iff msg).mpr h2
  simp [is_browser_task, h1, hk]

theorem claim_C2_witness :
    browser_keywords.length = 25 ∧
      is_browser_task {} "please Scrape THIS page" = true :=
  claim_C2 {} "please Scrape THIS page" rfl ⟨"scrape", by decide, by decide⟩

/-- C3: with `autoDetect` enabled, every message containing a substring
matching `https?://\S+` is classified `isBrowserTask = true` and the
extracted `url` is exactly the first such match (leftmost, greedily
maximal); with no such substring the `url` field is absent. -/
theorem claim_C3 (v : Valves) (msg : String)
    (h1 : v.enable_auto_detection = true) :
    (ContainsUrl msg.toList →
      is_browser_task v msg = true ∧
      ∃ u, task_url msg = some (String.mk u) ∧ IsFirstUrl msg.toList u) ∧
    (¬ ContainsUrl msg.toList → task_url msg = none) := by
  constructor
  · intro hC
    cases hfu : findUrl msg.toList with
    | none => exact absurd hfu (by simpa using findUrl_complete hC)
    | some u =>
      refine ⟨?_, u, by unfold task_url; rw [hfu]; rfl, findUrl_sound hfu⟩
      have hu : has_url msg = true := by unfold has_url; rw [hfu]; rfl
      simp [is_browser_task, h1, hu]
  · intro hC
    cases hfu : findUrl msg.toList with
    | none => unfold task_url; rw [hfu]; rfl
    | some u =>
      obtain ⟨p, s, hls, hshape, -, -⟩ := findUrl_sound hfu
      exact absurd ⟨p, u, s, hls, hshape⟩ hC

theorem claim_C3_witness :
    (ContainsUrl "see https://ex.com ok".toList →
      is_browser_task {} "see https://ex.com ok" = true ∧
      ∃ u, task_url "see https://ex.com ok" = some (String.mk u) ∧
        IsFirstUrl "see https://ex.com ok".toList u) ∧
    (¬ ContainsUrl "see https://ex.com ok".toList →
      task_url "see https://ex.com ok" = none) :=
  claim_C3 {} "see https://ex.com ok" rfl

/-- C4 counterexample: in the message `提取 selector "h1'` the only quoted
region is delimited by a double quote and a single quote — no substring
delimited by matching quotes exists — yet the code resolves the selector
`h1`.  The claim predicts the selector remains absent here. -/
theorem claim_C4_counterexample :
    extractSelector "提取 selector \"h1'" = some "h1" ∧
      ¬ ContainsMatchingQuoted "提取 selector \"h1'".toList := by
  constructor
  · decide
  · rintro ⟨p, q, w, s, hl, hq⟩
    have h2 : 2 ≤ ("提取 selector \"h1'".toList).count q := by
      rw [hl]
      simp only [List.count_append, List.count_cons_self]
      omega
    have hq' : q = '"' ∨ q = '\'' := by simpa [isQuote] using hq
    rcases hq' with rfl | rfl
    · have h1 : ("提取 selector \"h1'".toList).count '"' = 1 := by decide
      omega
    · have h1 : ("提取 selector \"h1'".toList).count '\'' = 1 := by decide
      omega

/-- C4 (amended): the selector trigger is as the claim states; when the
trigger is present the selector value is the captured group of the first
substring consisting of an opening quote, a nonempty quote-free run and a
closing quote, where the opening and closing quote characters need NOT
match; with the trigger absent, or the trigger present but no such quoted
substring, the selector is absent (no error). -/
theorem claim_C4_amended (task : String) :
    (¬ (("选择器".toList <:+: task.toList) ∨
        ("selector".toList <:+: (pyLower task).toList)) →
      extractSelector task = none) ∧
    (∀ s, extractSelector task = some s →
      (("选择器".toList <:+: task.toList) ∨
        ("selector".toList <:+: (pyLower task).toList)) ∧
      IsFirstQuoted task.toList s.toList) ∧
    ((("选择器".toList <:+: task.toList) ∨
        ("selector".toList <:+: (pyLower task).toList)) →
      ¬ ContainsQuoted task.toList → extractSelector task = none) := by
  have htr : (strContains task "选择器" || strContains (pyLower task) "selector")
      = true ↔
      (("选择器".toList <:+: task.toList) ∨
        ("selector".toList <:+: (pyLower task).toList)) := by
    simp [strContains, containsSeq_iff]
  refine ⟨?_, ?_, ?_⟩
  · intro hnot
    unfold extractSelector
    rw [if_neg (fun hc => hnot (htr.mp hc))]
  · intro s hs
    unfold extractSelector at hs
    by_cases hc : (strContains task "选择器" ||
        strContains (pyLower task) "selector") = true
    · rw [if_pos hc] at hs
      cases hfq : findQuoted task.toList with
      | none => rw [hfq] at hs; exact absurd hs (by simp)
      | some w =>
        rw [hfq] at hs
        have hsw : s = String.mk w := by simpa using hs.symm
        subst hsw
        exact ⟨htr.mp hc, findQuoted_sound hfq⟩
    · rw [if_neg hc] at hs
      exact absurd hs (by simp)
  · intro htrig hnoq
    unfold extractSelector
    rw [if_pos (htr.mpr htrig)]
    cases hfq : findQuoted task.toList with
    | none => rfl
    | some w =>
      obtain ⟨p, q1, q2, s', hl, hq1, hq2, hwne, hwall, -⟩ :=
        findQuoted_sound hfq
      exact absurd ⟨p, q1, w, q2, s', hl, hq1, hq2, hwne, hwall⟩ hnoq

theorem claim_C4_amended_witness :
    (("选择器".toList <:+: "选择器 'a\"b' x".toList) ∨
      ("selector".toList <:+: (pyLower "选择器 'a\"b' x").toList)) ∧
    IsFirstQuoted "选择器 'a\"b' x".toList "a".toList :=
  (claim_C4_amended "选择器 'a\"b' x").2.1 "a" (by decide)

/-- C5: the sub-intent is Extract exactly when the lowercased message
contains one of the five trigger substrings 提取, 抓取, 获取, extract,
scrape; the example message 抓取 `https://example.com` 的标题 is Extract
with url `https://example.com`. -/
theorem claim_C5 (task : String) :
    (isExtractTask task = true ↔
      ∃ k ∈ extract_keywords, k.toList <:+: (pyLower task).toList) ∧
    extract_keywords = ["提取", "抓取", "获取", "extract", "scrape"] ∧
    isExtractTask "抓取 https://example.com 的标题" = true ∧
    task_url "抓取 https://example.com 的标题" = some "https://example.com" := by
  exact ⟨isExtractTask_iff task, rfl, by decide, by decide⟩

theorem claim_C5_witness :
    (isExtractTask "please extract the title" = true ↔
      ∃ k ∈ extract_keywords,
        k.toList <:+: (pyLower "please extract the title").toList) ∧
    extract_keywords = ["提取", "抓取", "获取", "extract", "scrape"] ∧
    isExtractTask "抓取 https://example.com 的标题" = true ∧
    task_url "抓取 https://example.com 的标题" = some "https://example.com" :=
  claim_C5 "please extract the title"

/-- Unfolding of `_execute_browser_task`: the result pair is the routed
helper's pair with the exception-to-string mapping applied to its first
component. -/
theorem execute_browser_task_eq (v : Valves) (http : Http) (task : String) :
    execute_browser_task v http task =
      ((match (if isExtractTask task then
            extract_data v http task (task_url task)
          else execute_general_task v http task (task_url task)).1 with
        | .ok s => s
        | .error .connectionError =>
          "❌ 无法连接到 Chrome Agent 服务器，请确保服务正在运行"
        | .error .timeout => "⏱️ 请求超时，任务可能需要更长时间执行"
        | .error (.other d) => "❌ 执行失败: " ++ d),
       (if isExtractTask task then
          extract_data v http task (task_url task)
        else execute_general_task v http task (task_url task)).2) := by
  rcases h : (if isExtractTask task then
      extract_data v http task (task_url task)
    else execute_general_task v http task (task_url task)) with ⟨res, reqs⟩
  unfold execute_browser_task
  rw [h]
  rcases res with e | s
  · rcases e with _ | _ | d <;> rfl
  · rfl

/-- For a browser-task message the issued request list is exactly one
request, to the chat-completions endpoint, with the constant model and
stream fields and the claim-C6 content. -/
theorem pipe_requests (v : Valves) (http : Http) (msg : String)
    (hb : is_browser_task v msg = true) :
    (pipe v http msg).2 =
      [{ url := v.chrome_agent_url ++ "/api/v1/chat/completions",
         model := "chrome-agent-v1", content := claimContent msg,
         stream := false, timeout := v.timeout }] := by
  unfold pipe
  rw [if_pos hb, execute_browser_task_eq]
  by_cases hx : isExtractTask msg = true
  · rw [if_pos hx]
    cases hu : task_url msg with
    | none =>
      simp only [extract_data, claimContent, hu, hx]
    | some u =>
      cases hs : extractSelector msg with
      | none => simp only [extract_data, claimContent, hu, hs, hx, if_true]
      | some sel => simp only [extract_data, claimContent, hu, hs, hx, if_true]
  · have hx' : isExtractTask msg = false := Bool.eq_false_iff.mpr hx
    rw [if_neg hx]
    cases hu : task_url msg with
    | none => simp only [execute_general_task, claimContent, hu, hx']
    | some u =>
      simp only [execute_general_task, claimContent, hu, hx',
        Bool.false_eq_true, if_false]

/-- C6: every dispatched browser task issues a request whose content is the
visit-url-then-message phrase when a url was extracted (with the selector
suffix exactly when the sub-intent is Extract and a selector was resolved),
and the original message verbatim when no url was extracted. -/
theorem claim_C6 (v : Valves) (http : Http) (msg : String)
    (hb : is_browser_task v msg = true) :
    ∃ req : OutboundRequest, (pipe v http msg).2 = [req] ∧
      req.content = claimContent msg := by
  exact ⟨_, pipe_requests v http msg hb, rfl⟩

theorem claim_C6_witness :
    ∃ req : OutboundRequest,
      (pipe {} (fun _ => HttpOutcome.timeout) "访问 https://a.com").2 = [req] ∧
      req.content = claimContent "访问 https://a.com" :=
  claim_C6 {} (fun _ => HttpOutcome.timeout) "访问 https://a.com" (by decide)

/-- C7: per invocation of `pipe`, exactly one outbound request is issued
when the message is classified a browser task (whatever the outcome of the
call), and zero otherwise; the single request targets
`{backendURL}/api/v1/chat/completions`. -/
theorem claim_C7 (v : Valves) (http : Http) (msg : String) :
    (pipe v http msg).2.length =
      (if is_browser_task v msg = true then 1 else 0) ∧
    ∀ req ∈ (pipe v http msg).2,
      req.url = v.chrome_agent_url ++ "/api/v1/chat/completions" := by
  by_cases hb : is_browser_task v msg = true
  · have h2 := pipe_requests v http msg hb
    constructor
    · rw [h2, if_pos hb]
      rfl
    · intro req hreq
      rw [h2] at hreq
      simp only [List.mem_singleton] at hreq
      subst hreq
      rfl
  · have h0 : pipe v http msg = (msg, []) := by
      unfold pipe
      rw [if_neg hb]
    rw [h0, if_neg hb]
    exact ⟨rfl, by intro req hreq; simp at hreq⟩

theorem claim_C7_witness :
    (pipe {} (fun _ => HttpOutcome.timeout) "访问 https://a.com").2.length =
      (if is_browser_task {} "访问 https://a.com" = true then 1 else 0) ∧
    ∀ req ∈ (pipe {} (fun _ => HttpOutcome.timeout) "访问 https://a.com").2,
      req.url = Valves.chrome_agent_url {} ++ "/api/v1/chat/completions" :=
  claim_C7 {} (fun _ => HttpOutcome.timeout) "访问 https://a.com"

/-- For a browser-task message and a network returning outcome `o` for
every request, the result string of `pipe` is the routed template's
response mapping applied to `o`. -/
theorem pipe_fst_const (v : Valves) (msg : String)
    (hb : is_browser_task v msg = true) (o : HttpOutcome) :
    (pipe v (fun _ => o) msg).1 =
      (match handleResponse
          (if isExtractTask msg then "✅ 数据提取完成" else "✅ 任务执行完成")
          (if isExtractTask msg then "❌ 数据提取失败\n\n响应格式异常"
           else "❌ 任务执行失败\n\n响应格式异常")
          (if isExtractTask msg then "数据提取完成" else "任务已完成") o with
        | .ok s => s
        | .error .connectionError =>
          "❌ 无法连接到 Chrome Agent 服务器，请确保服务正在运行"
        | .error .timeout => "⏱️ 请求超时，任务可能需要更长时间执行"
        | .error (.other d) => "❌ 执行失败: " ++ d) := by
  unfold pipe
  rw [if_pos hb, execute_browser_task_eq]
  by_cases hx : isExtractTask msg = true
  · rw [if_pos hx, if_pos hx, if_pos hx, if_pos hx]
    rfl
  · rw [if_neg hx, if_neg hx, if_neg hx, if_neg hx]
    rfl

theorem handleResponse_200_cons (P F D t : String) (res : BackendResult)
    (c : BackendChoice) (cs : List BackendChoice)
    (hch : res.choices = some (c :: cs)) :
    handleResponse P F D (.resp ⟨200, .ok res, t⟩) =
      .ok (P ++ "\n\n" ++ ((c.message.getD ⟨none⟩).content.getD D)) := by
  unfold handleResponse
  dsimp only
  rw [if_pos rfl, hch]

theorem handleResponse_200_empty (P F D t : String) (res : BackendResult)
    (hch : res.choices = none ∨ res.choices = some []) :
    handleResponse P F D (.resp ⟨200, .ok res, t⟩) = .ok F := by
  unfold handleResponse
  dsimp only
  rcases hch with hch | hch <;> rw [if_pos rfl, hch]

theorem handleResponse_non200 (P F D t : String) (status : Nat)
    (body : JsonOutcome) (h : status ≠ 200) :
    handleResponse P F D (.resp ⟨status, body, t⟩) =
      .ok ("❌ 服务器错误 (" ++ toString status ++ "): " ++ t) := by
  unfold handleResponse
  dsimp only
  rw [if_neg h]

/-- C8: `pipe` never raises: a connection failure, a timeout, any other
exception from the call, and a JSON-decoding failure of a 200 response are
each converted at the dispatcher boundary to their formatted result
string. -/
theorem claim_C8 (v : Valves) (msg : String)
    (hb : is_browser_task v msg = true) :
    (pipe v (fun _ => HttpOutcome.connectionError) msg).1 =
      "❌ 无法连接到 Chrome Agent 服务器，请确保服务正在运行" ∧
    (pipe v (fun _ => HttpOutcome.timeout) msg).1 =
      "⏱️ 请求超时，任务可能需要更长时间执行" ∧
    (∀ d, (pipe v (fun _ => HttpOutcome.exc d) msg).1 =
      "❌ 执行失败: " ++ d) ∧
    (∀ d t, (pipe v (fun _ =>
        HttpOutcome.resp ⟨200, .fail d, t⟩) msg).1 =
      "❌ 执行失败: " ++ d) := by
  refine ⟨?_, ?_, ?_, ?_⟩
  · rw [pipe_fst_const v msg hb]
    rfl
  · rw [pipe_fst_const v msg hb]
    rfl
  · intro d
    rw [pipe_fst_const v msg hb]
    rfl
  · intro d t
    rw [pipe_fst_const v msg hb]
    unfold handleResponse
    dsimp only
    rw [if_pos rfl]

theorem claim_C8_witness :
    (pipe {} (fun _ => HttpOutcome.connectionError) "访问 https://a.com").1 =
      "❌ 无法连接到 Chrome Agent 服务器，请确保服务正在运行" ∧
    (pipe {} (fun _ => HttpOutcome.timeout) "访问 https://a.com").1 =
      "⏱️ 请求超时，任务可能需要更长时间执行" ∧
    (∀ d, (pipe {} (fun _ => HttpOutcome.exc d) "访问 https://a.com").1 =
      "❌ 执行失败: " ++ d) ∧
    (∀ d t, (pipe {} (fun _ =>
        HttpOutcome.resp ⟨200, .fail d, t⟩) "访问 https://a.com").1 =
      "❌ 执行失败: " ++ d) :=
  claim_C8 {} "访问 https://a.com" (by decide)

/-- C9: response mapping of a completed HTTP response, in either dispatch
path: 200 with nonempty `choices` yields the success template on
`choices[0].message.content` (with the per-path default when the content
field is missing), 200 with `choices` empty or absent yields the per-path
format-failure string, and any other status yields the server-error string
with the numeric status and the raw body. -/
theorem claim_C9 (v : Valves) (msg : String)
    (hb : is_browser_task v msg = true)
    (status : Nat) (res : BackendResult) (t : String) :
    (∀ c cs, status = 200 → res.choices = some (c :: cs) →
      (pipe v (fun _ => HttpOutcome.resp ⟨status, .ok res, t⟩) msg).1 =
        (if isExtractTask msg then "✅ 数据提取完成" else "✅ 任务执行完成") ++
          "\n\n" ++ ((c.message.getD ⟨none⟩).content.getD
            (if isExtractTask msg then "数据提取完成" else "任务已完成"))) ∧
    (status = 200 → (res.choices = none ∨ res.choices = some []) →
      (pipe v (fun _ => HttpOutcome.resp ⟨status, .ok res, t⟩) msg).1 =
        (if isExtractTask msg then "❌ 数据提取失败\n\n响应格式异常"
         else "❌ 任务执行失败\n\n响应格式异常")) ∧
    (status ≠ 200 →
      (pipe v (fun _ => HttpOutcome.resp ⟨status, .ok res, t⟩) msg).1 =
        "❌ 服务器错误 (" ++ toString status ++ "): " ++ t) := by
  refine ⟨?_, ?_, ?_⟩
  · intro c cs h200 hch
    subst h200
    rw [pipe_fst_const v msg hb, handleResponse_200_cons _ _ _ _ _ _ _ hch]
  · intro h200 hch
    subst h200
    rw [pipe_fst_const v msg hb, handleResponse_200_empty _ _ _ _ _ hch]
  · intro hne
    rw [pipe_fst_const v msg hb, handleResponse_non200 _ _ _ _ _ _ hne]

theorem claim_C9_witness :
    (pipe {} (fun _ => HttpOutcome.resp
        ⟨200, .ok ⟨some [⟨some ⟨some "Clicked"⟩⟩]⟩, ""⟩)
      "打开网页 https://a.com 并点击按钮").1 = "✅ 任务执行完成\n\nClicked" := by
  have h := (claim_C9 {} "打开网页 https://a.com 并点击按钮" (by decide) 200
      ⟨some [⟨some ⟨some "Clicked"⟩⟩]⟩ "").1 ⟨some ⟨some "Clicked"⟩⟩ [] rfl rfl
  rw [show isExtractTask "打开网页 https://a.com 并点击按钮" = false from by decide]
    at h
  simpa using h

theorem strContains_lower_mono (pre mid suf k : String)
    (h : strContains (pyLower mid) k = true) :
    strContains (pyLower (pre ++ mid ++ suf)) k = true := by
  rw [strContains, containsSeq_iff] at h ⊢
  have hL : (pyLower (pre ++ mid ++ suf)).toList =
      (pyLower pre).toList ++ (pyLower mid).toList ++ (pyLower suf).toList := by
    show ((pre ++ mid ++ suf).data.map pyLowerChar) = _
    rw [String.data_append, String.data_append, List.map_append,
      List.map_append]
    rfl
  rw [hL]
  exact h.trans (List.infix_append _ _ _)

/-- C10: keyword and sub-intent detection scan the entire lowercased message
including URL text: a trigger or keyword occurring anywhere — in particular
inside the extracted URL — still counts.  Concretely, the message 打开
`https://extract-data.example.com` (whose prefix 打开 contains no Extract
trigger) is routed to the data-extraction path, and the message 去
`https://visit.example.com` 吧 (whose non-URL part 去 吧 contains no keyword)
still has `hasKeyword = true`. -/
theorem claim_C10 (pre mid suf : String)
    (hx : isExtractTask mid = true) (hk : hasKeyword mid = true) :
    isExtractTask (pre ++ mid ++ suf) = true ∧
    hasKeyword (pre ++ mid ++ suf) = true ∧
    isExtractTask "打开 https://extract-data.example.com" = true ∧
    task_url "打开 https://extract-data.example.com" =
      some "https://extract-data.example.com" ∧
    extract_keywords.all (fun k => !(strContains "打开 " k)) = true ∧
    (pipe {} (fun _ => HttpOutcome.resp ⟨200, .ok ⟨some []⟩, ""⟩)
        "打开 https://extract-data.example.com").1 =
      "❌ 数据提取失败\n\n响应格式异常" ∧
    hasKeyword "去 https://visit.example.com 吧" = true ∧
    browser_keywords.all (fun k => !(strContains "去  吧" k)) = true := by
  refine ⟨?_, ?_, by decide, by decide, by decide, by decide, by decide,
    by decide⟩
  · unfold isExtractTask at hx ⊢
    obtain ⟨k, hkm, hkc⟩ := List.any_eq_true.mp hx
    exact List.any_eq_true.mpr ⟨k, hkm, strContains_lower_mono pre mid suf k hkc⟩
  · unfold hasKeyword at hk ⊢
    obtain ⟨k, hkm, hkc⟩ := List.any_eq_true.mp hk
    exact List.any_eq_true.mpr ⟨k, hkm, strContains_lower_mono pre mid suf k hkc⟩

theorem claim_C10_witness :
    isExtractTask ("打开 " ++ "https://extract-data.example.com" ++ "") = true ∧
    hasKeyword ("打开 " ++ "https://extract-data.example.com" ++ "") = true ∧
    isExtractTask "打开 https://extract-data.example.com" = true ∧
    task_url "打开 https://extract-data.example.com" =
      some "https://extract-data.example.com" ∧
    extract_keywords.all (fun k => !(strContains "打开 " k)) = true ∧
    (pipe {} (fun _ => HttpOutcome.resp ⟨200, .ok ⟨some []⟩, ""⟩)
        "打开 https://extract-data.example.com").1 =
      "❌ 数据提取失败\n\n响应格式异常" ∧
    hasKeyword "去 https://visit.example.com 吧" = true ∧
    browser_keywords.all (fun k => !(strContains "去  吧" k)) = true :=
  claim_C10 "打开 " "https://extract-data.example.com" "" (by decide) (by decide)
